import Mathlib

/-!
Verification development for the chatApp repository.

Shallow embedding of the synchronization core of a two-party chat client:
the frontend reducers that hold the per-conversation message log
(src/frontend/src/context/ChatContext.tsx, src/frontend/src/context/chat/ChatContext.tsx,
src/unnamed/part_008, src/unnamed/part_009), the backend message page endpoint and chat
creation endpoint (src/backend/src/controllers/authController.ts,
src/backend/src/models/Chat.ts), and the WebSocket connection managers
(src/frontend/src/services/chat/websocket.ts, src/unnamed/part_002, src/unnamed/part_009).

Timestamps are modelled as natural numbers (one unit = 1000 ms where the source works in
milliseconds), identities as strings, and handler functions as opaque numeric tokens.
JavaScript object maps keyed by string are modelled as association lists observed only
through lookup helpers.
-/

/-- A chat message as the frontend sees it: server-assigned identity, sender identity,
creation timestamp and body (fields _id, sender._id, createdAt, content of the Message
type in src/frontend/src/types). -/
structure Msg where
  id : String
  senderId : String
  createdAt : Nat
  content : String
deriving DecidableEq, Repr

/-- Per-conversation message log. -/
abbrev MsgLog := List Msg

/-- ADD_MESSAGE case of the chatReducer in src/frontend/src/context/ChatContext.tsx
(lines 56-68), src/frontend/src/context/chat/ChatContext.tsx (lines 48-58) and
src/unnamed/part_009 (lines 116-128): the incoming message is appended unconditionally
to the list for its conversation. -/
def addMessagePlain (ms : MsgLog) (m : Msg) : MsgLog :=
  ms ++ [m]

/-- ADD_MESSAGE case of the chatReducer in src/unnamed/part_008 (lines 42-55): every
entry carrying the same identity as the incoming message is filtered out, then the
incoming message is appended at the end. -/
def addMessageDedup (ms : MsgLog) (m : Msg) : MsgLog :=
  ms.filter (fun x => x.id != m.id) ++ [m]

/-- Comparator of the Mongo sort clause sort(\x7bcreatedAt: -1\x7d) used by getMessages in
src/backend/src/controllers/authController.ts (line 204): creation timestamp descending. -/
def byCreatedAtDesc (a b : Msg) : Prop :=
  b.createdAt ≤ a.createdAt

instance : DecidableRel byCreatedAtDesc :=
  fun a b => Nat.decLe b.createdAt a.createdAt

instance : IsTotal Msg byCreatedAtDesc :=
  ⟨fun a b => (Nat.le_total b.createdAt a.createdAt).imp id id⟩

instance : IsTrans Msg byCreatedAtDesc :=
  ⟨fun _ _ _ h1 h2 => Nat.le_trans h2 h1⟩

/-- getMessages of src/backend/src/controllers/authController.ts (lines 197-214): the
stored messages of one conversation are sorted by createdAt descending, a page is cut out
with skip((page - 1) * limit).limit(limit), and the page is reversed so that it is
returned in chronological order. -/
def getMessagesPage (msgs : List Msg) (page limit : Nat) : List Msg :=
  (((List.insertionSort byCreatedAtDesc msgs).drop ((page - 1) * limit)).take limit).reverse

/-- Concrete message A of the ordering scenario in the specification (timestamp 10). -/
def msgA : Msg := ⟨"a", "u1", 10, "hello"⟩

/-- Concrete message B of the ordering scenario in the specification (timestamp 5). -/
def msgB : Msg := ⟨"b", "u2", 5, "world"⟩

/-- A deduplicating append keeps the identity set duplicate-free. -/
theorem addMessageDedup_nodup (ms : MsgLog) (m : Msg)
    (h : (ms.map Msg.id).Nodup) : ((addMessageDedup ms m).map Msg.id).Nodup := by
  unfold addMessageDedup
  rw [List.map_append, List.nodup_append]
  refine ⟨?_, by simp, ?_⟩
  · exact h.sublist (List.Sublist.map Msg.id (List.filter_sublist ms))
  · intro a ha
    simp only [List.mem_map] at ha
    obtain ⟨x, hx, rfl⟩ := ha
    have hpr := (List.mem_filter.mp hx).2
    simp only [bne_iff_ne, ne_eq] at hpr
    simpa using hpr

/-- Identities already present survive a deduplicating append. -/
theorem mem_id_addMessageDedup (ms : MsgLog) (m : Msg) (a : String)
    (h : a ∈ ms.map Msg.id) : a ∈ (addMessageDedup ms m).map Msg.id := by
  unfold addMessageDedup
  rw [List.map_append, List.mem_append]
  by_cases ham : a = m.id
  · right
    simp [ham]
  · left
    simp only [List.mem_map] at h ⊢
    obtain ⟨x, hx, rfl⟩ := h
    exact ⟨x, List.mem_filter.mpr ⟨hx, by simpa [bne_iff_ne] using ham⟩, rfl⟩

/-- The appended identity is present after a deduplicating append. -/
theorem mem_id_addMessageDedup_self (ms : MsgLog) (m : Msg) :
    m.id ∈ (addMessageDedup ms m).map Msg.id := by
  unfold addMessageDedup
  simp

/-- Folding deduplicating appends preserves duplicate-freeness of identities. -/
theorem foldl_addMessageDedup_nodup (l : List Msg) :
    ∀ ms : MsgLog, (ms.map Msg.id).Nodup →
      (((l.foldl addMessageDedup ms)).map Msg.id).Nodup := by
  induction l with
  | nil => intro ms h; simpa using h
  | cons m l ih =>
    intro ms h
    exact ih (addMessageDedup ms m) (addMessageDedup_nodup ms m h)

/-- Folding deduplicating appends preserves identity membership. -/
theorem foldl_addMessageDedup_mem (l : List Msg) :
    ∀ (ms : MsgLog) (a : String), a ∈ ms.map Msg.id →
      a ∈ (l.foldl addMessageDedup ms).map Msg.id := by
  induction l with
  | nil => intro ms a h; simpa using h
  | cons m l ih =>
    intro ms a h
    exact ih (addMessageDedup ms m) a (mem_id_addMessageDedup ms m a h)

/-- Every appended identity is present after folding deduplicating appends. -/
theorem foldl_addMessageDedup_mem_of_mem (l : List Msg) :
    ∀ (ms : MsgLog) (m : Msg), m ∈ l →
      m.id ∈ (l.foldl addMessageDedup ms).map Msg.id := by
  induction l with
  | nil => intro ms m h; cases h
  | cons x l ih =>
    intro ms m h
    rcases List.mem_cons.mp h with h | h
    · subst h
      exact foldl_addMessageDedup_mem l _ _ (mem_id_addMessageDedup_self ms m)
    · exact ih _ m h

/-- C1 counterexample. The claim is false on the cited code: (i) the ADD_MESSAGE case of
src/frontend/src/context/ChatContext.tsx appends unconditionally, so appending the same
message twice leaves its identity in the list twice, violating the exactly-once property;
(ii) the deduplicating ADD_MESSAGE case of src/unnamed/part_008 is not a no-op on a
repeated identity: re-appending a message that is already first in a two-element list
moves it to the end, changing the list. -/
theorem c1_counterexample :
    (addMessagePlain (addMessagePlain [] msgA) msgA).countP (fun m => m.id == "a") = 2 ∧
    addMessageDedup [msgA, msgB] msgA = [msgB, msgA] ∧
    addMessageDedup [msgA, msgB] msgA ≠ [msgA, msgB] := by
  decide

/-- C1 amended: in the deduplicating reducer of src/unnamed/part_008, appending a message
whose identity already exists replaces the existing entry and moves it to the end of the
list rather than being a no-op; nevertheless, after any sequence of such appends starting
from the empty log, the message list contains each identity at most once, and every
appended identity is present. (The non-deduplicating ADD_MESSAGE reducer of
src/frontend/src/context/ChatContext.tsx does not maintain this invariant.) -/
theorem c1_dedup_exactly_once (appends : List Msg) :
    ((appends.foldl addMessageDedup []).map Msg.id).Nodup ∧
    (∀ m, m ∈ appends → m.id ∈ (appends.foldl addMessageDedup []).map Msg.id) := by
  constructor
  · exact foldl_addMessageDedup_nodup appends [] (by simp)
  · intro m hm
    exact foldl_addMessageDedup_mem_of_mem appends [] m hm

/-- C1 witness: the amended theorem applied to the one-element append sequence [msgA]. -/
theorem c1_dedup_exactly_once_witness :
    ((([msgA] : List Msg).foldl addMessageDedup []).map Msg.id).Nodup ∧
    msgA.id ∈ (([msgA] : List Msg).foldl addMessageDedup []).map Msg.id :=
  ⟨(c1_dedup_exactly_once [msgA]).1,
   (c1_dedup_exactly_once [msgA]).2 msgA (by decide)⟩

/-- C2 counterexample. The claim is false on the cited frontend code: the ADD_MESSAGE
reducer stores messages in append order and the read accessor returns the stored list as
is, so appending message A (ts = 10) and then message B (ts = 5) reads back [A, B], not
the claimed [B, A]. -/
theorem c2_counterexample :
    addMessagePlain (addMessagePlain [] msgA) msgB = [msgA, msgB] ∧
    addMessagePlain (addMessagePlain [] msgA) msgB ≠ [msgB, msgA] ∧
    msgA.createdAt = 10 ∧ msgB.createdAt = 5 := by
  decide

/-- Folding plain appends from a log yields the log followed by the appended messages. -/
theorem foldl_addMessagePlain (l : List Msg) :
    ∀ ms : MsgLog, l.foldl addMessagePlain ms = ms ++ l := by
  induction l with
  | nil => intro ms; simp
  | cons m l ih =>
    intro ms
    calc (m :: l).foldl addMessagePlain ms
        = l.foldl addMessagePlain (ms ++ [m]) := rfl
      _ = ms ++ m :: l := by rw [ih]; simp

/-- C2 amended: the frontend message list is kept, and read back, in append order (no
sort on read, no tie-breaking); only the backend getMessages endpoint sorts: each page it
returns is in ascending creation-timestamp order (descending fetch, then reversed), with
ties in unspecified order. -/
theorem c2_page_sorted_append_order (msgs : List Msg) (page limit : Nat)
    (appends : List Msg) :
    List.Sorted (fun a b : Msg => a.createdAt ≤ b.createdAt)
      (getMessagesPage msgs page limit) ∧
    appends.foldl addMessagePlain [] = appends := by
  constructor
  · have h1 : List.Sorted byCreatedAtDesc (List.insertionSort byCreatedAtDesc msgs) :=
      List.sorted_insertionSort byCreatedAtDesc msgs
    have h2 : (((List.insertionSort byCreatedAtDesc msgs).drop
        ((page - 1) * limit)).take limit).Pairwise byCreatedAtDesc :=
      h1.sublist ((List.take_sublist _ _).trans (List.drop_sublist _ _))
    unfold getMessagesPage
    exact List.pairwise_reverse.mpr (h2.imp (fun h => h))
  · simpa using foldl_addMessagePlain appends []

/-- Maximum reconnect attempt count: MAX_RECONNECT_ATTEMPTS = 5 in src/unnamed/part_009
(line 189), maxReconnectAttempts = 5 in src/frontend/src/services/chat/websocket.ts
(line 21) and src/unnamed/part_002 (line 21). -/
def maxReconnectAttempts : Nat := 5

/-- Connection-manager state observable by the reconnect logic: the attempt counter
(reconnectAttemptsRef in src/unnamed/part_009). -/
structure ConnMgr where
  reconnectAttempts : Nat
deriving DecidableEq, Repr

/-- Reaction of src/unnamed/part_009 (lines 432-457) to a failed connection attempt: if
the attempt counter has reached the maximum, no reconnect timer is scheduled (terminal
error surfaced); otherwise a timer is scheduled after Math.min(1000 * 2 ^ attempts,
30000) ms, i.e. min(1 * 2 ^ attempts, 30) time units of 1000 ms, and when it fires the
counter is incremented once before the retry. -/
def scheduleReconnect (s : ConnMgr) : Option (Nat × ConnMgr) :=
  if s.reconnectAttempts ≥ maxReconnectAttempts then none
  else some (min (1 * 2 ^ s.reconnectAttempts) 30, ⟨s.reconnectAttempts + 1⟩)

/-- Successful connection: the attempt counter is reset to 0 (src/unnamed/part_009 line
295; also websocket.ts line 33 and part_002 line 77). -/
def onConnectSuccess (_s : ConnMgr) : ConnMgr := ⟨0⟩

/-- Outcome of one connection attempt as seen by the reconnect logic. -/
inductive ConnEvent where
  | fail : ConnEvent
  | success : ConnEvent
deriving DecidableEq, Repr

/-- Run of the reconnect logic over a sequence of attempt outcomes, collecting the delay
(in time units) scheduled before each retry. -/
def runConn : ConnMgr → List ConnEvent → ConnMgr × List Nat
  | s, [] => (s, [])
  | s, ConnEvent.fail :: es =>
    match scheduleReconnect s with
    | none => runConn s es
    | some (d, s1) =>
      let r := runConn s1 es
      (r.1, d :: r.2)
  | s, ConnEvent.success :: es => runConn (onConnectSuccess s) es

/-- C3 confirmed: every scheduled reconnect delay equals min(1 * 2 ^ attempt, 30) time
units and increments the attempt counter by exactly one; a successful connect resets the
counter to 0; a run of 3 failed attempts from a fresh state schedules the delays
[1, 2, 4], and a 4th, successful attempt leaves the counter at 0. (The variant in
src/frontend/src/services/chat/websocket.ts computes 1000 * 2 ^ attempts ms with no
explicit cap; the final conjunct shows that below the attempt maximum this equals the
capped formula, since 2 ^ 4 = 16 < 30.) -/
theorem c3_reconnect_backoff :
    (∀ (s s1 : ConnMgr) (d : Nat), scheduleReconnect s = some (d, s1) →
      d = min (1 * 2 ^ s.reconnectAttempts) 30 ∧
      s1.reconnectAttempts = s.reconnectAttempts + 1) ∧
    (∀ s : ConnMgr, (onConnectSuccess s).reconnectAttempts = 0) ∧
    (runConn ⟨0⟩ [ConnEvent.fail, ConnEvent.fail, ConnEvent.fail]).2 = [1, 2, 4] ∧
    (runConn ⟨0⟩ [ConnEvent.fail, ConnEvent.fail, ConnEvent.fail,
      ConnEvent.success]).1.reconnectAttempts = 0 ∧
    (∀ s : ConnMgr, s.reconnectAttempts < maxReconnectAttempts →
      1000 * 2 ^ s.reconnectAttempts = 1000 * min (1 * 2 ^ s.reconnectAttempts) 30) := by
  refine ⟨?_, fun _ => rfl, by decide, by decide, ?_⟩
  · intro s s1 d h
    unfold scheduleReconnect at h
    split at h
    · exact absurd h (by simp)
    · rw [Option.some_inj, Prod.mk.injEq] at h
      exact ⟨h.1.symm, by rw [← h.2]⟩
  · intro s hs
    have hle : 2 ^ s.reconnectAttempts ≤ 2 ^ 4 :=
      Nat.pow_le_pow_right (by decide) (by revert hs; unfold maxReconnectAttempts; omega)
    have : min (1 * 2 ^ s.reconnectAttempts) 30 = 1 * 2 ^ s.reconnectAttempts := by
      apply Nat.min_eq_left
      omega
    rw [this, Nat.one_mul]

/-- C3 witness: the general conjuncts applied at a fresh state (attempt counter 0). -/
theorem c3_reconnect_backoff_witness :
    ((1 : Nat) = min (1 * 2 ^ (ConnMgr.mk 0).reconnectAttempts) 30 ∧
      (ConnMgr.mk 1).reconnectAttempts = (ConnMgr.mk 0).reconnectAttempts + 1) ∧
    1000 * 2 ^ (ConnMgr.mk 0).reconnectAttempts
      = 1000 * min (1 * 2 ^ (ConnMgr.mk 0).reconnectAttempts) 30 :=
  ⟨c3_reconnect_backoff.1 ⟨0⟩ ⟨1⟩ 1 (by decide),
   c3_reconnect_backoff.2.2.2.2 ⟨0⟩ (by decide)⟩

/-- State of the WebSocketService in src/frontend/src/services/chat/websocket.ts: the
socket (open or absent), the event-handler map (event name to registered handler tokens,
in registration order), the reconnect attempt counter, and the delays of setTimeout
callbacks scheduled by attemptReconnect that have not yet fired. The service stores no
handle to those timers, so no code path can cancel them; they are carried here to make
that observable. -/
structure WSService where
  wsOpen : Bool
  eventHandlers : List (String × List Nat)
  reconnectAttempts : Nat
  pendingReconnects : List Nat
deriving DecidableEq, Repr

/-- A freshly constructed WebSocketService (lines 17-24). -/
def wsInit : WSService := ⟨false, [], 0, []⟩

/-- connect (websocket.ts lines 26-53): returns immediately when the socket is already
open, otherwise opens a new socket. The handler map is untouched. -/
def wsConnect (s : WSService) : WSService :=
  if s.wsOpen then s else { s with wsOpen := true }

/-- attemptReconnect (websocket.ts lines 55-65): gives up once the attempt counter has
reached maxReconnectAttempts, otherwise schedules a setTimeout after
reconnectTimeout * 2 ^ reconnectAttempts ms (reconnectTimeout = 1000). -/
def wsAttemptReconnect (s : WSService) : WSService :=
  if s.reconnectAttempts ≥ maxReconnectAttempts then s
  else { s with pendingReconnects := s.pendingReconnects ++ [1000 * 2 ^ s.reconnectAttempts] }

/-- Appends a handler token under an event name, as Map.get(event).push(handler) does
after ensuring the key exists (websocket.ts lines 67-72). -/
def wsRegister : List (String × List Nat) → String → Nat → List (String × List Nat)
  | [], e, h => [(e, [h])]
  | (e1, hs) :: rest, e, h =>
    if e1 = e then (e1, hs ++ [h]) :: rest else (e1, hs) :: wsRegister rest e h

/-- on (websocket.ts lines 67-72). -/
def wsOn (s : WSService) (e : String) (h : Nat) : WSService :=
  { s with eventHandlers := wsRegister s.eventHandlers e h }

/-- handleEvent (websocket.ts lines 84-87): the handlers invoked when an event of the
given type is delivered are exactly those currently registered under its name. -/
def wsInvoked (s : WSService) (e : String) : List Nat :=
  match s.eventHandlers.find? (fun p => p.1 == e) with
  | some p => p.2
  | none => []

/-- disconnect (websocket.ts lines 109-113): close the socket, null the reference, clear
the handler map. No clearTimeout is performed, and indeed no timer handle exists to
clear, so pending reconnect timers pass through untouched. -/
def wsDisconnect (s : WSService) : WSService :=
  { s with wsOpen := false, eventHandlers := [] }

/-- C4 counterexample. The claim is false on the cited code: a reconnect timer scheduled
by attemptReconnect before disconnect() is still pending after disconnect() returns
(disconnect, lines 109-113, performs no clearTimeout and stores no timer handle), so the
previously scheduled reconnect attempt still fires. -/
theorem c4_counterexample :
    (wsDisconnect (wsAttemptReconnect (wsConnect wsInit))).pendingReconnects = [1000] ∧
    (wsDisconnect (wsAttemptReconnect (wsConnect wsInit))).pendingReconnects ≠ [] := by
  decide

/-- C4 amended: disconnect() is idempotent and safe to call when already disconnected
(a second call leaves the state unchanged), but it does not cancel pending reconnect
timers: the set of scheduled, not-yet-fired reconnect callbacks is exactly the same
before and after disconnect(). -/
theorem c4_disconnect_idempotent_no_cancel (s : WSService) :
    wsDisconnect (wsDisconnect s) = wsDisconnect s ∧
    (wsDisconnect s).pendingReconnects = s.pendingReconnects :=
  ⟨rfl, rfl⟩

/-- C9 confirmed: after WebSocketService.disconnect() the event-handler map is empty, and
a subsequent connect() delivers any event to no previously registered handler — handler
registration does not survive an explicit disconnect. -/
theorem c9_disconnect_clears_handlers (s : WSService) (e : String) :
    (wsDisconnect s).eventHandlers = [] ∧
    wsInvoked (wsConnect (wsDisconnect s)) e = [] := by
  exact ⟨rfl, rfl⟩

/-- State of the WebSocketManager in src/unnamed/part_002 (lines 17-178). Socket
instances are numbered by generation; socketGen is the current instance (none while
disconnected), registry is the eventHandlers map flattened to (event, handler) pairs in
registration order, and attachments records the socket.on listener bindings made on each
socket instance. -/
structure WSManager where
  socketGen : Option Nat
  nextGen : Nat
  registry : List (String × Nat)
  attachments : List (Nat × String × Nat)
deriving DecidableEq, Repr

/-- A freshly constructed WebSocketManager. -/
def wsmInit : WSManager := ⟨none, 0, [], []⟩

/-- WebSocketManager.on (part_002 lines 145-162): the handler is always recorded in the
eventHandlers registry; a transport listener is attached only when a socket instance
currently exists (if (this.socket) this.socket.on(...)). -/
def wsmOn (s : WSManager) (e : String) (h : Nat) : WSManager :=
  { s with
    registry := s.registry ++ [(e, h)]
    attachments :=
      match s.socketGen with
      | some g => s.attachments ++ [(g, e, h)]
      | none => s.attachments }

/-- WebSocketManager.connect (part_002 lines 35-69): a no-op when a socket already exists
(connected or connecting); otherwise a fresh socket instance is created and only the
connection-lifecycle listeners are installed (setupConnectionStateHandlers, lines 71-100).
The eventHandlers registry is never replayed onto the new socket. -/
def wsmConnect (s : WSManager) : WSManager :=
  match s.socketGen with
  | some _ => s
  | none => { s with socketGen := some s.nextGen, nextGen := s.nextGen + 1 }

/-- WebSocketManager.disconnect (part_002 lines 123-129): the socket is dropped; listener
bindings die with the socket instance, the registry survives. -/
def wsmDisconnect (s : WSManager) : WSManager :=
  { s with socketGen := none }

/-- Handlers invoked when the live transport delivers one event of the given name: the
listeners attached to the current socket instance under that name, in attachment order. -/
def wsmDelivered (s : WSManager) (e : String) : List Nat :=
  match s.socketGen with
  | none => []
  | some g => (s.attachments.filter (fun a => a.1 == g && a.2.1 == e)).map (fun a => a.2.2)

/-- C6 counterexample. The claim is false on the cited code: a handler registered via
on() while disconnected is recorded in the registry but connect() never wires it to the
new transport, so a delivered event invokes it zero times, not exactly once; likewise a
handler attached while connected is not re-attached after a disconnect/reconnect cycle
and receives zero deliveries on the new socket. -/
theorem c6_counterexample :
    (wsmConnect (wsmOn wsmInit "message" 7)).registry = [("message", 7)] ∧
    wsmDelivered (wsmConnect (wsmOn wsmInit "message" 7)) "message" = [] ∧
    wsmDelivered (wsmConnect (wsmDisconnect (wsmOn (wsmConnect wsmInit) "message" 7)))
      "message" = [] := by
  decide

/-- State of the second class of src/unnamed/part_002, WebSocketService (lines 205-359):
whether a socket instance exists and whether it is connected, the eventHandlers registry,
whether setupEventHandlers has attached its bridge listeners on the current socket, and
the direct listeners attached by on() on the current socket. The bridge listeners
(for the messageReceived and userTyping socket events) look the registry up at delivery
time; a direct listener invokes only the one handler it captured. -/
structure WSService2 where
  socketLive : Bool
  socketConnected : Bool
  eventHandlers : List (String × List Nat)
  bridged : Bool
  direct : List (String × Nat)
deriving DecidableEq, Repr

/-- A freshly constructed part_002 WebSocketService. -/
def svc2Init : WSService2 := ⟨false, false, [], false, []⟩

/-- Registry lookup, defaulting to the empty handler list. -/
def svc2Handlers (m : List (String × List Nat)) (e : String) : List Nat :=
  match m.find? (fun p => p.1 == e) with
  | some p => p.2
  | none => []

/-- setupEventHandlers (part_002 lines 270-299): a no-op without a socket; otherwise it
removes any previous bridge listeners (socket.off) and attaches exactly one bridge per
event, so running it once or twice leaves one bridge set on the current socket. -/
def svc2Setup (s : WSService2) : WSService2 :=
  if s.socketLive then { s with bridged := true } else s

/-- connect of the part_002 WebSocketService (lines 211-268) together with the connect
event it waits for: a connected socket is reused unchanged; otherwise any stale socket is
torn down (removeAllListeners drops its bridges and direct listeners) and a fresh one is
created, and setupEventHandlers runs — both synchronously and again when the connect
event fires, which re-attaches the bridges to the new transport instance. -/
def svc2Connect (s : WSService2) : WSService2 :=
  if s.socketLive && s.socketConnected then s
  else svc2Setup
    { s with
      socketLive := true
      socketConnected := true
      bridged := false
      direct := [] }

/-- WebSocketService.on (part_002 lines 301-314): the handler is appended to the
registry; on the first registration for an event, if the socket is currently connected,
a direct listener invoking just that handler is additionally attached to the socket. -/
def svc2On (s : WSService2) (e : String) (h : Nat) : WSService2 :=
  { s with
    eventHandlers := wsRegister s.eventHandlers e h
    direct :=
      if (s.eventHandlers.find? (fun p => p.1 == e)).isSome then s.direct
      else if s.socketLive && s.socketConnected then s.direct ++ [(e, h)]
      else s.direct }

/-- Handlers invoked when the live socket delivers one messageReceived event: the bridge
(when attached) invokes every handler currently registered under messageReceived, and
each direct listener for that event invokes its captured handler. -/
def svc2DeliveredMessage (s : WSService2) : List Nat :=
  (if s.bridged then svc2Handlers s.eventHandlers "messageReceived" else [])
    ++ (s.direct.filter (fun p => p.1 == "messageReceived")).map (fun p => p.2)

/-- Registering appends the handler to the registry entry of its event. -/
theorem svc2Handlers_wsRegister (m : List (String × List Nat)) (e : String) (h : Nat) :
    svc2Handlers (wsRegister m e h) e = svc2Handlers m e ++ [h] := by
  induction m with
  | nil => simp [wsRegister, svc2Handlers, List.find?_cons]
  | cons p m ih =>
    by_cases hpe : p.1 = e
    · rcases p with ⟨e1, hs⟩
      simp only at hpe
      subst hpe
      simp [wsRegister, svc2Handlers, List.find?_cons]
    · rcases p with ⟨e1, hs⟩
      simp only at hpe
      have hne : (e1 == e) = false := by
        simp only [beq_eq_false_iff_ne, ne_eq]
        exact hpe
      simp only [wsRegister, if_neg hpe, svc2Handlers, List.find?_cons, hne]
      simpa [svc2Handlers] using ih

/-- C6 amended: the delivery guarantee differs between the two cited classes. In
WebSocketManager, on() wires a handler to the transport only when a socket instance
exists at registration time (such a handler is invoked exactly once more per delivered
event on that socket), and connect() installs only lifecycle listeners without replaying
the registry, so its handlers registered while disconnected, and handlers attached to a
previous socket, receive zero deliveries. In the part_002 WebSocketService,
setupEventHandlers — run from connect() and again on each connect event — re-attaches
one registry-reading bridge per event to the new transport, so a handler registered
while disconnected is wired once a connection exists and one delivered messageReceived
event invokes each registered handler exactly once; but a first-time registration for an
event made while connected attaches a direct listener alongside the bridge, and such a
handler is invoked twice per delivered event. -/
theorem c6_wiring_at_registration_only :
    (∀ (s : WSManager) (e : String) (h : Nat), s.socketGen = none →
      (wsmOn s e h).attachments = s.attachments) ∧
    (∀ s : WSManager, (wsmConnect s).attachments = s.attachments) ∧
    (∀ (s : WSManager) (e : String) (h g : Nat), s.socketGen = some g →
      wsmDelivered (wsmOn s e h) e = wsmDelivered s e ++ [h]) ∧
    (∀ (s : WSService2) (h : Nat), s.socketConnected = false →
      svc2DeliveredMessage (svc2Connect (svc2On s "messageReceived" h))
        = svc2Handlers s.eventHandlers "messageReceived" ++ [h]) ∧
    (∀ (s : WSService2) (h : Nat), s.socketLive = true → s.socketConnected = true →
      s.bridged = true →
      s.eventHandlers.find? (fun p => p.1 == "messageReceived") = none →
      s.direct = [] →
      svc2DeliveredMessage (svc2On s "messageReceived" h) = [h, h]) := by
  refine ⟨?_, ?_, ?_, ?_, ?_⟩
  · intro s e h hnone
    simp [wsmOn, hnone]
  · intro s
    unfold wsmConnect
    cases s.socketGen <;> rfl
  · intro s e h g hg
    simp [wsmOn, wsmDelivered, hg, List.filter_append]
  · intro s h hconn
    obtain ⟨sl, sc, eh, br, dr⟩ := s
    have hsc : sc = false := hconn
    subst hsc
    have h1 : svc2Connect (svc2On ⟨sl, false, eh, br, dr⟩ "messageReceived" h)
        = ⟨true, true, wsRegister eh "messageReceived" h, true, []⟩ := by
      simp [svc2On, svc2Connect, svc2Setup]
    rw [h1]
    show svc2Handlers (wsRegister eh "messageReceived" h) "messageReceived" ++ []
        = svc2Handlers eh "messageReceived" ++ [h]
    rw [List.append_nil]
    exact svc2Handlers_wsRegister eh "messageReceived" h
  · intro s h hlive hconn hbridged hfind hdirect
    obtain ⟨sl, sc, eh, br, dr⟩ := s
    have h1 : sl = true := hlive
    have h2 : sc = true := hconn
    have h3 : br = true := hbridged
    have h4 : dr = ([] : List (String × Nat)) := hdirect
    subst h1
    subst h2
    subst h3
    subst h4
    have hfe : eh.find? (fun p => p.1 == "messageReceived") = none := hfind
    have hz : svc2Handlers eh "messageReceived" = [] := by
      unfold svc2Handlers
      rw [hfe]
    simp [svc2On, svc2DeliveredMessage, hfe, svc2Handlers_wsRegister, hz]

/-- C6 witness: the amended theorem applied to a fresh manager (registration while
disconnected attaches nothing), a connected manager (registration while connected is
delivered exactly once), a fresh part_002 service (registration while disconnected is
delivered exactly once after connect), and a connected part_002 service (first-time
registration while connected is delivered twice). -/
theorem c6_wiring_at_registration_only_witness :
    ((wsmOn wsmInit "message" 7).attachments = wsmInit.attachments) ∧
    wsmDelivered (wsmOn (wsmConnect wsmInit) "message" 7) "message"
      = wsmDelivered (wsmConnect wsmInit) "message" ++ [7] ∧
    svc2DeliveredMessage (svc2Connect (svc2On svc2Init "messageReceived" 7))
      = svc2Handlers svc2Init.eventHandlers "messageReceived" ++ [7] ∧
    svc2DeliveredMessage (svc2On (svc2Connect svc2Init) "messageReceived" 9) = [9, 9] :=
  ⟨c6_wiring_at_registration_only.1 wsmInit "message" 7 rfl,
   c6_wiring_at_registration_only.2.2.1 (wsmConnect wsmInit) "message" 7 0 rfl,
   c6_wiring_at_registration_only.2.2.2.1 svc2Init 7 rfl,
   c6_wiring_at_registration_only.2.2.2.2 (svc2Connect svc2Init) 9 rfl rfl rfl rfl rfl⟩

/-- Typing auto-expiry interval: 3000 ms in src/unnamed/part_009 (line 414), i.e. 3 time
units of 1000 ms. -/
def typingTTL : Nat := 3

/-- Typing-indicator state of the ChatProvider in src/unnamed/part_009: typingStatus is
the reducer field of the same name (a map keyed by chatId — not by (chatId, userId)),
and timeouts models typingTimeoutsRef, the pending expiry timers keyed by chatId with
their absolute expiry instants. -/
structure TypingState where
  typingStatus : List (String × Bool)
  timeouts : List (String × Nat)
deriving DecidableEq, Repr

/-- SET_TYPING case of the chatReducer in src/unnamed/part_009 (lines 142-149): the
object-spread update of the typingStatus map at key chatId. -/
def setStatus (l : List (String × Bool)) (c : String) (b : Bool) : List (String × Bool) :=
  (c, b) :: l.filter (fun p => p.1 != c)

/-- Lookup in the typingStatus map. -/
def getStatus (l : List (String × Bool)) (c : String) : Option Bool :=
  (l.find? (fun p => p.1 == c)).map (fun p => p.2)

/-- The onTyping handler installed by setupWebSocket in src/unnamed/part_009 (lines
384-416): a signal from the local user is dropped; otherwise the pending timeout for the
chat (if any) is cleared, SET_TYPING records the flag, and when the flag is true a fresh
expiry timer for the chat is started at now + typingTTL. Both the timer map and the
status map are keyed by chatId only. -/
def onTypingSignal (me : String) (s : TypingState) (now : Nat) (c u : String)
    (b : Bool) : TypingState :=
  if u == me then s
  else
    let cleared := s.timeouts.filter (fun p => p.1 != c)
    let status := setStatus s.typingStatus c b
    if b then ⟨status, (c, now + typingTTL) :: cleared⟩ else ⟨status, cleared⟩

/-- Firing of every expiry timer whose instant has been reached at time now: each fires
the setTimeout callback of src/unnamed/part_009 (lines 406-414), dispatching SET_TYPING
false for its chat and deleting itself from the timer map. -/
def fireDueTimers (s : TypingState) (now : Nat) : TypingState :=
  ⟨(s.timeouts.filter (fun p => decide (p.2 ≤ now))).foldl
      (fun st p => setStatus st p.1 false) s.typingStatus,
   s.timeouts.filter (fun p => decide (now < p.2))⟩

/-- One inbound typing signal: arrival time, chat, user and flag. -/
structure TypingEvent where
  time : Nat
  chatId : String
  userId : String
  isTyping : Bool

/-- Processing of a sequence of typing signals by the part_009 onTyping handler. -/
def applyTypingEvents (me : String) (s : TypingState) (evs : List TypingEvent) :
    TypingState :=
  evs.foldl (fun st e => onTypingSignal me st e.time e.chatId e.userId e.isTyping) s

/-- Finding a key in a map from which a different key was deleted is unchanged. -/
theorem find?_key_filter {β : Type} (l : List (String × β)) (c k : String) (hck : c ≠ k) :
    ((l.filter (fun p => p.1 != k)).find? (fun p => p.1 == c))
      = l.find? (fun p => p.1 == c) := by
  induction l with
  | nil => rfl
  | cons a l ih =>
    by_cases hak : a.1 = k
    · have h1 : (a.1 != k) = false := by simp [hak]
      have h2 : (a.1 == c) = false := by
        simp only [beq_eq_false_iff_ne, ne_eq]
        exact fun hac => hck (hac.symm.trans hak)
      rw [List.filter_cons, h1]
      simp only [Bool.false_eq_true, if_false]
      rw [List.find?_cons, h2, ih]
    · have h1 : (a.1 != k) = true := by simp [hak]
      rw [List.filter_cons, h1]
      simp only [if_true]
      rw [List.find?_cons, List.find?_cons]
      cases hbc : (a.1 == c)
      · exact ih
      · rfl

/-- Value of the status map after an update: the written value at the written key, the
previous value elsewhere. -/
theorem getStatus_setStatus (l : List (String × Bool)) (c k : String) (b : Bool) :
    getStatus (setStatus l k b) c = if c = k then some b else getStatus l c := by
  by_cases hck : c = k
  · subst hck
    simp [getStatus, setStatus, List.find?_cons]
  · simp only [getStatus, setStatus, List.find?_cons]
    have hkc : (k == c) = false := by
      simp only [beq_eq_false_iff_ne, ne_eq]
      exact fun h => hck h.symm
    rw [hkc, if_neg hck]
    simp only []
    rw [find?_key_filter l c k hck]

/-- Key projection of a map from which a different key was deleted is unchanged. -/
theorem filter_key_filter {β : Type} (l : List (String × β)) (c k : String) (hck : c ≠ k) :
    ((l.filter (fun p => p.1 != k)).filter (fun p => p.1 == c))
      = l.filter (fun p => p.1 == c) := by
  induction l with
  | nil => rfl
  | cons a l ih =>
    by_cases hak : a.1 = k
    · have h1 : (a.1 != k) = false := by simp [hak]
      have h2 : (a.1 == c) = false := by
        simp only [beq_eq_false_iff_ne, ne_eq]
        exact fun hac => hck (hac.symm.trans hak)
      rw [List.filter_cons, h1]
      simp only [Bool.false_eq_true, if_false]
      rw [ih, List.filter_cons, h2]
      simp only [Bool.false_eq_true, if_false]
    · have h1 : (a.1 != k) = true := by simp [hak]
      rw [List.filter_cons, h1]
      simp only [if_true]
      rw [List.filter_cons, List.filter_cons, ih]

/-- The key projection of a map from which that very key was deleted is empty. -/
theorem filter_key_self {β : Type} (l : List (String × β)) (c : String) :
    ((l.filter (fun p => p.1 != c)).filter (fun p => p.1 == c)) = [] := by
  induction l with
  | nil => rfl
  | cons a l ih =>
    by_cases hac : a.1 = c
    · simp [List.filter_cons, hac, ih]
    · simp [List.filter_cons, hac, ih]

/-- A typing signal for a different chat changes neither the status entry nor the pending
timers of chat c. -/
theorem onTypingSignal_other_chat (me : String) (st : TypingState) (t : Nat)
    (k u c : String) (b : Bool) (hck : c ≠ k) :
    getStatus (onTypingSignal me st t k u b).typingStatus c
        = getStatus st.typingStatus c ∧
    (onTypingSignal me st t k u b).timeouts.filter (fun p => p.1 == c)
        = st.timeouts.filter (fun p => p.1 == c) := by
  by_cases hum : u = me
  · unfold onTypingSignal
    rw [if_pos (by simp [hum])]
    exact ⟨rfl, rfl⟩
  · have hkc : (k == c) = false := by
      simp only [beq_eq_false_iff_ne, ne_eq]
      exact fun h => hck h.symm
    cases b
    · unfold onTypingSignal
      rw [if_neg (by simp [hum])]
      constructor
      · show getStatus (setStatus st.typingStatus k false) c = getStatus st.typingStatus c
        rw [getStatus_setStatus, if_neg hck]
      · show (st.timeouts.filter (fun p => p.1 != k)).filter (fun p => p.1 == c)
            = st.timeouts.filter (fun p => p.1 == c)
        exact filter_key_filter st.timeouts c k hck
    · unfold onTypingSignal
      rw [if_neg (by simp [hum])]
      constructor
      · show getStatus (setStatus st.typingStatus k true) c = getStatus st.typingStatus c
        rw [getStatus_setStatus, if_neg hck]
      · show (((k, t + typingTTL) :: st.timeouts.filter (fun p => p.1 != k)).filter
            (fun p => p.1 == c)) = st.timeouts.filter (fun p => p.1 == c)
        rw [List.filter_cons]
        simp only [hkc, Bool.false_eq_true, if_false]
        exact filter_key_filter st.timeouts c k hck

/-- A sequence of typing signals that never mentions chat c changes neither the status
entry nor the pending timers of chat c. -/
theorem applyTypingEvents_other_chats (me c : String) (evs : List TypingEvent) :
    ∀ st : TypingState, (∀ e, e ∈ evs → e.chatId ≠ c) →
      getStatus (applyTypingEvents me st evs).typingStatus c
          = getStatus st.typingStatus c ∧
      (applyTypingEvents me st evs).timeouts.filter (fun p => p.1 == c)
          = st.timeouts.filter (fun p => p.1 == c) := by
  induction evs with
  | nil => intro st _; exact ⟨rfl, rfl⟩
  | cons e evs ih =>
    intro st hevs
    have hec : c ≠ e.chatId := fun h => hevs e (List.mem_cons_self e evs) h.symm
    have hstep := onTypingSignal_other_chat me st e.time e.chatId e.userId c e.isTyping hec
    have hrest := ih (onTypingSignal me st e.time e.chatId e.userId e.isTyping)
      (fun x hx => hevs x (List.mem_cons_of_mem e hx))
    exact ⟨hrest.1.trans hstep.1, hrest.2.trans hstep.2⟩

/-- After a typing-true signal for chat c from another user, exactly one timer for c is
pending, at instant now + typingTTL. -/
theorem onTypingSignal_true_timer (me : String) (st : TypingState) (now : Nat)
    (c u : String) (hu : u ≠ me) :
    (onTypingSignal me st now c u true).timeouts.filter (fun p => p.1 == c)
      = [(c, now + typingTTL)] := by
  unfold onTypingSignal
  rw [if_neg (by simp [hu])]
  show (((c, now + typingTTL) :: st.timeouts.filter (fun p => p.1 != c)).filter
      (fun p => p.1 == c)) = [(c, now + typingTTL)]
  rw [List.filter_cons]
  simp only [beq_self_eq_true, if_true]
  rw [filter_key_self st.timeouts c]

/-- Once the fold of SET_TYPING-false dispatches reaches a timer for chat c, the status
entry of c is false. -/
theorem getStatus_foldl_setFalse (l : List (String × Nat)) :
    ∀ (st : List (String × Bool)) (c : String),
      ((∃ d, (c, d) ∈ l) ∨ getStatus st c = some false) →
      getStatus (l.foldl (fun a p => setStatus a p.1 false) st) c = some false := by
  induction l with
  | nil =>
    intro st c h
    rcases h with ⟨d, hd⟩ | h
    · cases hd
    · simpa using h
  | cons p l ih =>
    intro st c h
    by_cases hpc : p.1 = c
    · apply ih
      right
      rw [getStatus_setStatus]
      rw [if_pos hpc.symm]
    · apply ih
      rcases h with ⟨d, hd⟩ | h
      · rcases List.mem_cons.mp hd with hd | hd
        · exact absurd (congrArg Prod.fst hd).symm hpc
        · exact Or.inl ⟨d, hd⟩
      · right
        rw [getStatus_setStatus, if_neg (fun hh => hpc hh.symm)]
        exact h

/-- C7 counterexample. The claim is false on the cited code: timers and typing state are
keyed by chatId only, not by (chatId, userId). User u signals typing-true in chat c at
time 0 and sends no further signal; a different user v signals typing-true in the same
chat at time 2, which restarts the single per-chat timer; at time 4 — more than 3 time
units after the signal of the pair (c, u) — the tracker still reports typing = true. -/
theorem c7_counterexample :
    getStatus (fireDueTimers (onTypingSignal "me"
        (onTypingSignal "me" ⟨[], []⟩ 0 "c" "u" true) 2 "c" "v" true) 4).typingStatus "c"
      = some true ∧
    ("u" : String) ≠ "me" ∧ ("v" : String) ≠ "me" ∧ 0 + typingTTL ≤ 4 := by
  refine ⟨?_, by decide, by decide, by decide⟩
  rfl

/-- C7 amended: the tracker is keyed per conversation, not per (conversation, user). A
typing-true signal from another user (re)starts the single expiry timer of that chat at
now + typingTTL; if no further signal mentions that chat, then once the TTL has elapsed
the fired timer makes the tracker report typing = false for it; and a typing-false signal
from another user clears the entry and cancels the pending timer of that chat
immediately. -/
theorem c7_typing_ttl_per_chat (me : String) (s : TypingState) (now tq : Nat)
    (c u : String) (evs : List TypingEvent)
    (hu : u ≠ me)
    (hevs : ∀ e, e ∈ evs → e.chatId ≠ c)
    (ht : now + typingTTL ≤ tq) :
    getStatus (fireDueTimers
        (applyTypingEvents me (onTypingSignal me s now c u true) evs) tq).typingStatus c
      = some false ∧
    (∀ (s2 : TypingState) (n2 : Nat) (u2 : String), u2 ≠ me →
      getStatus (onTypingSignal me s2 n2 c u2 false).typingStatus c = some false ∧
      (onTypingSignal me s2 n2 c u2 false).timeouts.filter (fun p => p.1 == c) = []) := by
  constructor
  · set s1 := onTypingSignal me s now c u true with hs1
    set s2 := applyTypingEvents me s1 evs with hs2
    have htimer : s2.timeouts.filter (fun p => p.1 == c) = [(c, now + typingTTL)] := by
      rw [(applyTypingEvents_other_chats me c evs s1 hevs).2]
      exact onTypingSignal_true_timer me s now c u hu
    have hmem : (c, now + typingTTL) ∈ s2.timeouts := by
      have : (c, now + typingTTL) ∈ s2.timeouts.filter (fun p => p.1 == c) := by
        rw [htimer]; exact List.mem_singleton.mpr rfl
      exact List.mem_of_mem_filter this
    have hdue : (c, now + typingTTL) ∈ s2.timeouts.filter (fun p => decide (p.2 ≤ tq)) :=
      List.mem_filter.mpr ⟨hmem, by simpa using ht⟩
    exact getStatus_foldl_setFalse _ s2.typingStatus c (Or.inl ⟨now + typingTTL, hdue⟩)
  · intro s2 n2 u2 hu2
    constructor
    · unfold onTypingSignal
      rw [if_neg (by simp [hu2])]
      show getStatus (setStatus s2.typingStatus c false) c = some false
      rw [getStatus_setStatus, if_pos rfl]
    · unfold onTypingSignal
      rw [if_neg (by simp [hu2])]
      show ((s2.timeouts.filter (fun p => p.1 != c)).filter (fun p => p.1 == c)) = []
      exact filter_key_self s2.timeouts c

/-- C7 witness: the amended theorem applied to a fresh tracker, a single typing-true
signal for chat c by user u at time 0, no interleaved signals, queried at time 3; and a
typing-false signal by user w for the second conjunct. -/
theorem c7_typing_ttl_per_chat_witness :
    getStatus (fireDueTimers
        (applyTypingEvents "me" (onTypingSignal "me" ⟨[], []⟩ 0 "c" "u" true) []) 3).typingStatus "c"
      = some false ∧
    getStatus (onTypingSignal "me" ⟨[], []⟩ 5 "c" "w" false).typingStatus "c" = some false :=
  ⟨(c7_typing_ttl_per_chat "me" ⟨[], []⟩ 0 3 "c" "u" [] (by decide)
      (fun e he => absurd he (List.not_mem_nil e)) (by decide)).1,
   ((c7_typing_ttl_per_chat "me" ⟨[], []⟩ 0 3 "c" "u" [] (by decide)
      (fun e he => absurd he (List.not_mem_nil e)) (by decide)).2 ⟨[], []⟩ 5 "w"
      (by decide)).1⟩

/-- A conversation as the frontend reducers see it: identity and the denormalized
latest-message pointer. -/
structure Chat9 where
  id : String
  lastMessage : Option Msg
deriving DecidableEq, Repr

/-- ChatProvider reducer state (src/unnamed/part_009 lines 20-27 and
src/frontend/src/context/ChatContext.tsx lines 9-15): conversation list, active
conversation, per-conversation message logs and per-conversation typing flags. -/
structure ChatState9 where
  chats : List Chat9
  activeChat : Option Chat9
  messages : List (String × MsgLog)
  typingStatus : List (String × Bool)
deriving DecidableEq, Repr

/-- Message log of one conversation, defaulting to the empty list as
(state.messages[chatId] || []) does. -/
def getMsgs (m : List (String × MsgLog)) (c : String) : MsgLog :=
  match m.find? (fun p => p.1 == c) with
  | some p => p.2
  | none => []

/-- Whether the message map has an entry for the conversation
(state.messages[chatId] !== undefined). -/
def hasMsgsEntry (m : List (String × MsgLog)) (c : String) : Bool :=
  (m.find? (fun p => p.1 == c)).isSome

/-- Object-spread update of the message map at one key. -/
def setMsgs (m : List (String × MsgLog)) (c : String) (v : MsgLog) :
    List (String × MsgLog) :=
  (c, v) :: m.filter (fun p => p.1 != c)

/-- UPDATE_CHAT case of the chatReducer in src/unnamed/part_009 (lines 79-107): the
payload keeps its lastMessage or inherits the previous one, the updated conversation
moves to the front of the list, and the active conversation is replaced when it is the
updated one. -/
def applyUpdateChat (s : ChatState9) (payload : Chat9) : ChatState9 :=
  let old := s.chats.find? (fun ch => ch.id == payload.id)
  let updated : Chat9 :=
    { payload with lastMessage :=
        match payload.lastMessage with
        | some m => some m
        | none => old.bind (fun ch => ch.lastMessage) }
  { s with
    chats := updated :: s.chats.filter (fun ch => ch.id != payload.id)
    activeChat :=
      match s.activeChat with
      | some a => if a.id == payload.id then some updated else some a
      | none => none }

/-- UPDATE_CHAT case of the chatReducer in src/frontend/src/context/ChatContext.tsx
(lines 37-47): in-place replacement by identity, preserving list order. -/
def applyUpdateChatLegacy (s : ChatState9) (payload : Chat9) : ChatState9 :=
  { s with
    chats := s.chats.map (fun ch => if ch.id == payload.id then payload else ch)
    activeChat :=
      match s.activeChat with
      | some a => if a.id == payload.id then some payload else some a
      | none => none }

/-- The messageReceived handler installed by setupWebSocket in src/unnamed/part_009
(lines 299-382): an event whose sender is the local user is dropped; an event whose
message identity is already present is dropped; when the conversation is unknown the
handler only triggers an asynchronous loadChats refetch, leaving the state unchanged;
otherwise ADD_MESSAGE appends the message and UPDATE_CHAT moves the conversation to the
front with the new latest-message pointer. -/
def handleIncomingMessage (me : String) (s : ChatState9) (chatId : String)
    (msg : Msg) : ChatState9 :=
  if msg.senderId == me then s
  else if (getMsgs s.messages chatId).any (fun m => m.id == msg.id) then s
  else
    match s.chats.find? (fun ch => ch.id == chatId) with
    | none => s
    | some chat =>
      let s1 : ChatState9 :=
        { s with messages :=
            setMsgs s.messages chatId (addMessagePlain (getMsgs s.messages chatId) msg) }
      applyUpdateChat s1 { chat with lastMessage := some msg }

/-- The messageReceived handler of src/frontend/src/context/ChatContext.tsx (lines
154-183): no sender filter and no duplicate check; when the message log of the
conversation is loaded or the conversation is active, ADD_MESSAGE appends the message
and, if the conversation is known, UPDATE_CHAT replaces its latest-message pointer;
otherwise the handler only triggers an asynchronous loadMessages fetch, leaving the
state unchanged. -/
def handleIncomingMessageLegacy (s : ChatState9) (chatId : String) (msg : Msg) :
    ChatState9 :=
  if hasMsgsEntry s.messages chatId
      || (match s.activeChat with | some a => a.id == chatId | none => false) then
    let s1 : ChatState9 :=
      { s with messages :=
          setMsgs s.messages chatId (addMessagePlain (getMsgs s.messages chatId) msg) }
    match s.chats.find? (fun ch => ch.id == chatId) with
    | some chat => applyUpdateChatLegacy s1 { chat with lastMessage := some msg }
    | none => s1
  else s

/-- A message sent by the local user (identity "me"). -/
def selfMsg : Msg := ⟨"m1", "me", 0, "hi"⟩

/-- A state in which the message log of conversation "c" is loaded and empty. -/
def c5State : ChatState9 := ⟨[], none, [("c", [])], []⟩

/-- C5 counterexample. The claim is false on the cited code: the messageReceived handler
of src/frontend/src/context/ChatContext.tsx applies no self-filter, so injecting an
inbound message event whose sender equals the local user identity changes the message
store (the self message is appended). -/
theorem c5_counterexample :
    selfMsg.senderId = "me" ∧
    getMsgs (handleIncomingMessageLegacy c5State "c" selfMsg).messages "c" = [selfMsg] ∧
    handleIncomingMessageLegacy c5State "c" selfMsg ≠ c5State := by
  decide

/-- C5 amended: the part_009 coordinator does discard self events before they reach any
store: an inbound message event whose sender is the local user leaves the whole reducer
state unchanged, and an inbound typing event for the local user leaves the typing state
(status and timers) unchanged. The legacy handler of
src/frontend/src/context/ChatContext.tsx performs no such filtering. -/
theorem c5_self_filter_part009 (me : String) (s : ChatState9) (c : String) (m : Msg)
    (ts : TypingState) (now : Nat) (u : String) (b : Bool)
    (hm : m.senderId = me) (hu : u = me) :
    handleIncomingMessage me s c m = s ∧
    onTypingSignal me ts now c u b = ts := by
  constructor
  · unfold handleIncomingMessage
    rw [if_pos (by simp [hm])]
  · unfold onTypingSignal
    rw [if_pos (by simp [hu])]

/-- C5 witness: the amended theorem applied to a concrete state, a concrete self message
and a concrete self typing event. -/
theorem c5_self_filter_part009_witness :
    handleIncomingMessage "me" c5State "c" selfMsg = c5State ∧
    onTypingSignal "me" ⟨[], []⟩ 0 "c" "me" true = (⟨[], []⟩ : TypingState) :=
  c5_self_filter_part009 "me" c5State "c" selfMsg ⟨[], []⟩ 0 "me" true rfl rfl

/-- A chat document as persisted by the backend (src/backend/src/models/Chat.ts): a
numeric surrogate for the Mongo _id and the participant identities. The isGroup and name
request fields are absent from the schema and are stripped on save by strict mode. -/
structure StoredChat where
  chatId : Nat
  participants : List String
deriving DecidableEq, Repr

/-- Mongo membership test: the participants array contains the given identity. -/
def hasParticipant (c : StoredChat) (u : String) : Bool :=
  c.participants.any (fun x => x == u)

/-- The Chat.findOne filter of createChat in src/backend/src/controllers/authController.ts
(lines 157-163): participants contains both req.user._id and participants[0] and has
exactly 2 entries. (The isGroup: false clause of the filter targets a field absent from
the schema; it is stripped by strict query mode, matching the deduplication behaviour the
code relies on.) -/
def pairQueryMatch (me p : String) (c : StoredChat) : Bool :=
  hasParticipant c me && hasParticipant c p && c.participants.length == 2

/-- The pre-save hook of chatSchema (src/backend/src/models/Chat.ts lines 35-42): a save
passes validation exactly when the chat has exactly 2 participants. -/
def preSaveOk (parts : List String) : Bool :=
  parts.length == 2

/-- Persisting one chat document: the pre-save hook rejects the save with an error (and
nothing is stored) unless the participant list has exactly 2 entries. -/
def saveChat (db : List StoredChat) (c : StoredChat) : Except String (List StoredChat) :=
  if preSaveOk c.participants then Except.ok (db ++ [c])
  else Except.error "Chat must have exactly 2 participants"

/-- Direct-message branch of createChat (authController.ts lines 156-177): look up an
existing 2-participant chat containing both the caller and participants[0]; if found,
return it unchanged, otherwise create and persist a chat with participants
[req.user._id, participants[0]] (which always has exactly 2 entries, so its save passes
the pre-save hook). Returns the responded chat and the resulting store. -/
def createDirectChat (db : List StoredChat) (nextId : Nat) (me p : String) :
    StoredChat × List StoredChat :=
  match db.find? (pairQueryMatch me p) with
  | some c => (c, db)
  | none =>
    let c : StoredChat := ⟨nextId, [me, p]⟩
    (c, db ++ [c])

/-- Group branch of createChat (authController.ts lines 170-177): no existing-chat
lookup; a chat with participants [req.user._id, ...participants] is saved, subject to
the pre-save hook. On rejection the error propagates and the store is unchanged. -/
def createGroupChat (db : List StoredChat) (nextId : Nat) (me : String)
    (participants : List String) : Except String StoredChat × List StoredChat :=
  match saveChat db ⟨nextId, me :: participants⟩ with
  | Except.ok db1 => (Except.ok ⟨nextId, me :: participants⟩, db1)
  | Except.error e => (Except.error e, db)

/-- The pair query is symmetric in the two participants. -/
theorem pairQueryMatch_symm (me p : String) (c : StoredChat) :
    pairQueryMatch me p c = pairQueryMatch p me c := by
  unfold pairQueryMatch
  cases hasParticipant c me <;> cases hasParticipant c p <;> simp

/-- find? only depends on the predicate extensionally. -/
theorem find?_congrB {α : Type} (l : List α) (f g : α → Bool) (h : ∀ a, f a = g a) :
    l.find? f = l.find? g := by
  induction l with
  | nil => rfl
  | cons a l ih =>
    rw [List.find?_cons, List.find?_cons, h a]
    cases g a
    · exact ih
    · rfl

/-- find? over an append scans the first list first. -/
theorem find?_append_match {α : Type} (l₁ l₂ : List α) (f : α → Bool) :
    (l₁ ++ l₂).find? f =
      match l₁.find? f with
      | some x => some x
      | none => l₂.find? f := by
  induction l₁ with
  | nil => rfl
  | cons a l ih =>
    rw [List.cons_append, List.find?_cons, List.find?_cons]
    cases f a
    · exact ih
    · rfl

/-- C8 confirmed: direct-message creation is idempotent by unordered participant pair.
Starting from any store holding at most one chat for the pair, a first create call by me
with counterpart p yields a store with exactly one chat matching the pair, and a second
create call by the other participant p with counterpart me returns exactly the chat of
the first call and leaves the store unchanged. -/
theorem c8_create_chat_idempotent_pair (db : List StoredChat) (n1 n2 : Nat)
    (me p : String)
    (hcount : db.countP (pairQueryMatch me p) ≤ 1) :
    createDirectChat (createDirectChat db n1 me p).2 n2 p me
      = ((createDirectChat db n1 me p).1, (createDirectChat db n1 me p).2) ∧
    (createDirectChat db n1 me p).2.countP (pairQueryMatch me p) = 1 := by
  have hsymm : ∀ c, pairQueryMatch p me c = pairQueryMatch me p c :=
    fun c => (pairQueryMatch_symm me p c).symm
  cases hfind : db.find? (pairQueryMatch me p) with
  | some c =>
    have h1 : createDirectChat db n1 me p = (c, db) := by
      unfold createDirectChat
      rw [hfind]
    rw [h1]
    constructor
    · have hfind2 : db.find? (pairQueryMatch p me) = some c := by
        rw [find?_congrB db (pairQueryMatch p me) (pairQueryMatch me p) hsymm]
        exact hfind
      unfold createDirectChat
      rw [hfind2]
    · have hc1 : 0 < db.countP (pairQueryMatch me p) :=
        List.countP_pos_iff.mpr ⟨c, List.mem_of_find?_eq_some hfind, List.find?_some hfind⟩
      show db.countP (pairQueryMatch me p) = 1
      omega
  | none =>
    have hmatchpm : pairQueryMatch p me ⟨n1, [me, p]⟩ = true := by
      simp [pairQueryMatch, hasParticipant]
    have hmatchmp : pairQueryMatch me p ⟨n1, [me, p]⟩ = true := by
      simp [pairQueryMatch, hasParticipant]
    have h1 : createDirectChat db n1 me p
        = (⟨n1, [me, p]⟩, db ++ [⟨n1, [me, p]⟩]) := by
      unfold createDirectChat
      rw [hfind]
    rw [h1]
    constructor
    · have hfind2 : ((db ++ [(⟨n1, [me, p]⟩ : StoredChat)]).find? (pairQueryMatch p me))
          = some ⟨n1, [me, p]⟩ := by
        rw [find?_append_match]
        rw [find?_congrB db (pairQueryMatch p me) (pairQueryMatch me p) hsymm, hfind]
        rw [List.find?_cons, hmatchpm]
      unfold createDirectChat
      rw [hfind2]
    · rw [List.countP_append]
      have hz : db.countP (pairQueryMatch me p) = 0 := by
        apply List.countP_eq_zero.mpr
        intro x hx
        have hxf := List.find?_eq_none.mp hfind x hx
        simpa using hxf
      rw [hz]
      simp [List.countP_cons, hmatchmp]

/-- C8 witness: the idempotence theorem applied to the empty store with users a and b. -/
theorem c8_create_chat_idempotent_pair_witness :
    (createDirectChat (createDirectChat [] 1 "a" "b").2 2 "b" "a"
      = ((createDirectChat [] 1 "a" "b").1, (createDirectChat [] 1 "a" "b").2)) ∧
    (createDirectChat [] 1 "a" "b").2.countP (pairQueryMatch "a" "b") = 1 :=
  c8_create_chat_idempotent_pair [] 1 2 "a" "b" (by decide)

/-- C10 confirmed: the pre-save hook keeps every persisted chat at exactly 2
participants. A group create-chat request whose resulting participant list
[req.user._id, ...participants] does not have exactly 2 entries fails with the
validation error and stores nothing; a successful create (group or direct) stores a
2-participant chat, preserving the invariant that every chat in the store has exactly 2
participants. -/
theorem c10_two_participant_invariant (db : List StoredChat) (nextId : Nat)
    (me p : String) (ps : List String)
    (hdb : ∀ c, c ∈ db → c.participants.length = 2) :
    ((me :: ps).length ≠ 2 →
      (createGroupChat db nextId me ps).1
          = Except.error "Chat must have exactly 2 participants" ∧
      (createGroupChat db nextId me ps).2 = db) ∧
    (∀ c1 db1, createGroupChat db nextId me ps = (Except.ok c1, db1) →
      c1.participants.length = 2 ∧ ∀ c, c ∈ db1 → c.participants.length = 2) ∧
    (∀ c, c ∈ (createDirectChat db nextId me p).2 → c.participants.length = 2) := by
  refine ⟨?_, ?_, ?_⟩
  · intro hlen
    have hpre : preSaveOk (me :: ps) = false := by
      simp only [preSaveOk, beq_eq_false_iff_ne, ne_eq]
      exact hlen
    simp [createGroupChat, saveChat, hpre]
  · intro c1 db1 h
    cases hpre : preSaveOk (me :: ps) with
    | false =>
      simp only [createGroupChat, saveChat, hpre, Bool.false_eq_true, if_false] at h
      exact absurd (congrArg Prod.fst h) (by simp)
    | true =>
      simp only [createGroupChat, saveChat, hpre, if_true, Prod.mk.injEq,
        Except.ok.injEq] at h
      obtain ⟨hc1e, hdb1⟩ := h
      have hlen2 : (me :: ps).length = 2 := by
        simpa [preSaveOk] using hpre
      constructor
      · rw [← hc1e]
        exact hlen2
      · intro c hc
        rw [← hdb1] at hc
        rcases List.mem_append.mp hc with hcl | hcr
        · exact hdb c hcl
        · rw [List.mem_singleton.mp hcr]
          exact hlen2
  · intro c hc
    revert hc
    unfold createDirectChat
    cases hfind : db.find? (pairQueryMatch me p) with
    | some c0 =>
      intro hc
      exact hdb c hc
    | none =>
      intro hc
      rcases List.mem_append.mp hc with hcl | hcr
      · exact hdb c hcl
      · rw [List.mem_singleton.mp hcr]
        rfl

/-- C10 witness: the invariant theorem applied to the empty store — a group request for
3 total participants fails with the validation error and stores nothing, and the chat
stored by a direct create has exactly 2 participants. -/
theorem c10_two_participant_invariant_witness :
    ((createGroupChat [] 0 "a" ["b", "c"]).1
        = Except.error "Chat must have exactly 2 participants" ∧
      (createGroupChat [] 0 "a" ["b", "c"]).2 = []) ∧
    (⟨0, ["a", "x"]⟩ : StoredChat).participants.length = 2 :=
  ⟨(c10_two_participant_invariant [] 0 "a" "x" ["b", "c"]
      (fun c hc => absurd hc (List.not_mem_nil c))).1 (by decide),
   (c10_two_participant_invariant [] 0 "a" "x" ["b", "c"]
      (fun c hc => absurd hc (List.not_mem_nil c))).2.2 ⟨0, ["a", "x"]⟩ (by decide)⟩
